import Mathlib

/-!
Verification development for the AlterEcho ingestion/normalization/deduplication
pipeline (backend sources: `api.py`, `instagram_zip_processor.py`,
`discord_zip_processor.py`, `Jorvan testing ground/processor.py`).

The Python sources are shallowly embedded: pure fragments become Lean
functions, filesystem state becomes explicit maps, fallible reads become
`Option`/`FileRead` values, Python `float` ratio comparisons are modelled
exactly over `ℚ`, and MD5 hashing (an external primitive) is a function
parameter.  Each definition mirrors one Python function and keeps its name.
-/

namespace AlterEcho

/-! ## DuplicateGate (`api.py`, `check_content_overlap`)

`check_content_overlap(new_fingerprints, existing_fingerprints, threshold=0.8)`:
the `existing_fingerprints` dict is modelled as an association list in
iteration (insertion) order; fingerprint sets are `Finset String`.  The float
division `overlap / min_size >= threshold` is modelled exactly over `ℚ`. -/

/-- The `for filename, existing_fps in existing_fingerprints.items()` loop of
`check_content_overlap`: skip empty candidate sets, return `(True, filename)`
for the first candidate with `min_size > 0` and `overlap / min_size >= threshold`. -/
def overlapLoop (new_fps : Finset String) (threshold : ℚ) :
    List (String × Finset String) → Bool × Option String
  | [] => (false, none)
  | (filename, fps) :: rest =>
    if fps = ∅ then overlapLoop new_fps threshold rest
    else if 0 < min new_fps.card fps.card ∧
        threshold ≤ ((new_fps ∩ fps).card : ℚ) / ((min new_fps.card fps.card : Nat) : ℚ) then
      (true, some filename)
    else overlapLoop new_fps threshold rest

/-- `check_content_overlap` from `api.py`: an empty `new_fingerprints` set
(`if not new_fingerprints`) immediately yields `(False, None)`; otherwise the
candidates are scanned in iteration order. -/
def check_content_overlap (new_fps : Finset String)
    (existing : List (String × Finset String)) (threshold : ℚ) : Bool × Option String :=
  if new_fps = ∅ then (false, none) else overlapLoop new_fps threshold existing

/-! ## Archive extraction (`extract_zip` in both zip processors)

Both `instagram_zip_processor.extract_zip` and `discord_zip_processor.extract_zip`
are textually identical: delete `TEMP_ZIP_DIR/zip_id` if it exists, recreate it
empty, then `ZipFile.extractall` into it.  The temp-dir area is modelled as a
map from zip id to an optional directory; a directory is a list of
(member name, content) files written in archive order, later writes
overwriting earlier ones. -/

/-- One extracted directory: files keyed by member name. -/
abbrev ZipDir := List (String × String)

/-- An archive: its members in zip order. -/
abbrev ZipArchive := List (String × String)

/-- The `temp_zip` area: which zip ids currently have an extracted directory. -/
abbrev ZipFS := String → Option ZipDir

/-- Writing one member file into a directory: overwrite the entry if the name
exists, otherwise append it. -/
def writeMember (d : ZipDir) (name content : String) : ZipDir :=
  if d.any (fun p => p.1 == name) then
    d.map (fun p => if p.1 == name then (name, content) else p)
  else d ++ [(name, content)]

/-- `ZipFile.extractall` into an existing directory: write every archive member
in order. -/
def extractall (d : ZipDir) (a : ZipArchive) : ZipDir :=
  a.foldl (fun acc p => writeMember acc p.1 p.2) d

/-- `shutil.rmtree(extract_dir)` guarded by `extract_dir.exists()`. -/
def rmtreeIfExists (fs : ZipFS) (zip_id : String) : ZipFS :=
  if (fs zip_id).isSome then (fun j => if j = zip_id then none else fs j) else fs

/-- `extract_dir.mkdir(parents=True)`: a fresh empty directory for the id. -/
def mkdirFresh (fs : ZipFS) (zip_id : String) : ZipFS :=
  fun j => if j = zip_id then some [] else fs j

/-- `extract_zip(zip_path, zip_id)` (identical in both zip processor modules):
remove any prior directory for the id, make a fresh one, extract the archive
into it. -/
def extract_zip (fs : ZipFS) (zip_id : String) (a : ZipArchive) : ZipFS :=
  let fs1 := rmtreeIfExists fs zip_id
  let fs2 := mkdirFresh fs1 zip_id
  fun j => if j = zip_id then (fs2 j).map (fun d => extractall d a) else fs2 j

/-! ## FormatClassifier and the ad-hoc text dialect patterns (`processor.py`)

File content is modelled as `List Char`.  The two regular expressions are
embedded as executable matchers that follow Python `re` semantics for these
specific patterns: `.` does not match `\n`, `\s` is the ASCII whitespace
class, a bounded greedy digit run followed by a non-digit literal is
deterministic, `.*` is greedy with backtracking and `(.*?)` is lazy. -/

/-- Python `\s` (ASCII model of the whitespace class). -/
def isPySpace (c : Char) : Bool :=
  c = ' ' || c = '\t' || c = '\n' || c = '\r' || c = '\x0b' || c = '\x0c'

/-- Python `str.strip()` (ASCII whitespace model). -/
def pyStrip (cs : List Char) : List Char :=
  (((cs.dropWhile isPySpace).reverse).dropWhile isPySpace).reverse

/-- Count the leading ASCII digits, returning the count and the rest. -/
def countDigits : List Char → Nat × List Char
  | [] => (0, [])
  | c :: rest =>
    if c.isDigit then
      let r := countDigits rest
      (r.1 + 1, r.2)
    else (0, c :: rest)

/-- Match `\d{lo,hi}` immediately followed by the literal `lit`.  In all the
WhatsApp patterns the literal after a digit run is never itself a digit, so
greedy matching with backtracking reduces to: the full leading digit run has
length in `[lo, hi]` and is followed by `lit`. -/
def digitsThen (lo hi : Nat) (lit : Char) (cs : List Char) : Option (List Char) :=
  let r := countDigits cs
  if lo ≤ r.1 ∧ r.1 ≤ hi then
    match r.2 with
    | c :: rest => if c = lit then some rest else none
    | [] => none
  else none

/-- Whether the first character exists and is `\s` whitespace. -/
def headIsSpace : List Char → Bool
  | w :: _ => isPySpace w
  | [] => false

/-- The shared date/time head `\d{1,2}/\d{1,2}/\d{2,4},\s\d{1,2}:\d{2}` of the
WhatsApp patterns, returning the rest of the input after the minutes. -/
def dtHead (cs : List Char) : Option (List Char) := do
  let r1 ← digitsThen 1 2 '/' cs
  let r2 ← digitsThen 1 2 '/' r1
  let r3 ← digitsThen 2 4 ',' r2
  match r3 with
  | w :: r4 =>
    if isPySpace w then do
      let r5 ← digitsThen 1 2 ':' r4
      match r5 with
      | d1 :: d2 :: r6 => if d1.isDigit && d2.isDigit then some r6 else none
      | _ => none
    else none
  | [] => none

/-- `.*-\s` as a pure match test: greedily consume non-newline characters,
looking for a `-` followed by one whitespace character. -/
def dotStarDashWs : List Char → Bool
  | [] => false
  | c :: rest =>
    (c = '-' && headIsSpace rest) || (c ≠ '\n' && dotStarDashWs rest)

/-- `re.search` of the classification pattern
`\d{1,2}/\d{1,2}/\d{2,4},\s\d{1,2}:\d{2}.*-\s` over the whole prefix: try
every start position. -/
def waSearch : List Char → Bool
  | [] => false
  | l@(_ :: rest) =>
    (match dtHead l with
     | some r => dotStarDashWs r
     | none => false) || waSearch rest

/-- Whether `pat` occurs at the very start of `l`. -/
def beginsWith : List Char → List Char → Bool
  | [], _ => true
  | _ :: _, [] => false
  | p :: ps, c :: cs => p = c && beginsWith ps cs

/-- Python `pat in content`: `pat` occurs as a contiguous substring. -/
def containsSub (pat : List Char) : List Char → Bool
  | [] => beginsWith pat []
  | l@(_ :: rest) => beginsWith pat l || containsSub pat rest

/-- The `'"participants":'` marker substring checked by `classify_file`. -/
def participantsMarker : List Char := "\"participants\":".toList

/-- The `'"messages":'` marker substring checked by `classify_file`. -/
def messagesMarker : List Char := "\"messages\":".toList

/-- The body of `classify_file` applied to the `f.read(4096)` prefix that was
successfully read: JSON-dialect sniffing first (trimmed prefix starts with
`\x7b` or `[`, both markers appear as substrings of the untrimmed prefix),
then the WhatsApp pattern, else `'NULL'`. -/
def classifyContent (content : List Char) : String :=
  let stripped := pyStrip content
  let startsJson :=
    match stripped with
    | c :: _ => c = '\x7b' || c = '['
    | [] => false
  if startsJson && (containsSub participantsMarker content && containsSub messagesMarker content) then
    "Instagram"
  else if waSearch content then "WhatsApp"
  else "NULL"

/-- `classify_file(file_path)` from `processor.py`: `none` models a missing or
unopenable file (the `except` branch returns `'NULL'`); `some content` is the
decoded content, of which `f.read(4096)` takes the prefix. -/
def classify_file (file : Option (List Char)) : String :=
  match file with
  | none => "NULL"
  | some content => classifyContent (content.take 4096)

/-! ## Canonical data model (vendor-A JSON schema) -/

/-- A participant entry of the canonical schema. -/
structure Participant where
  name : String
deriving DecidableEq, Repr

/-- One message of the canonical schema. -/
structure NMsg where
  sender_name : String
  content : String
  timestamp_ms : Int
deriving DecidableEq, Repr

/-- A parsed `message_N.json`-style document: `participants` and `messages`,
plus `title` standing in for the remaining top-level fields that
`merge_conversation_messages` carries over from the base file unchanged. -/
structure ConvFile where
  participants : List Participant
  title : String
  messages : List NMsg
deriving DecidableEq, Repr

/-- A readable text file as the participant extractor and the fingerprint
engine see it: its full character content, and the result of `json.load` on
it (`none` when the content fails to parse as JSON). -/
structure RawFile where
  content : List Char
  json : Option ConvFile

/-- `f.readlines()` followed by per-line regex work, modelled as splitting on
`\n` without the kept trailing newline (which `.` and `$` never match past).
A trailing newline yields one extra empty line, which no pattern matches. -/
def linesOf : List Char → List (List Char)
  | [] => [[]]
  | c :: rest =>
    match linesOf rest with
    | [] => [[c]]
    | l :: ls => if c = '\n' then [] :: l :: ls else (c :: l) :: ls

/-- `(.*?):` — lazily capture up to the first `:` (`.` does not match `\n`). -/
def lazyToColon : List Char → Option (List Char × List Char)
  | [] => none
  | c :: rest =>
    if c = ':' then some ([], rest)
    else if c = '\n' then none
    else (lazyToColon rest).map (fun r => (c :: r.1, r.2))

/-- `(.*?):\s` — lazily capture up to the first `:` that is followed by one
whitespace character; a `:` without following whitespace is swallowed by the
lazy group. -/
def lazyToColonWs : List Char → Option (List Char × List Char)
  | [] => none
  | c :: rest =>
    if c = ':' && headIsSpace rest then some ([], rest.tail)
    else if c = '\n' then none
    else (lazyToColonWs rest).map (fun r => (c :: r.1, r.2))

/-- `.*-\s` followed by a continuation `k`: the greedy `.*` prefers the
farthest `-` + whitespace position at which `k` succeeds, backtracking
leftwards. -/
def greedyDashThen (k : List Char → Option α) : List Char → Option α
  | [] => none
  | c :: rest =>
    (if c ≠ '\n' then greedyDashThen k rest else none) <|>
    (if c = '-' && headIsSpace rest then k rest.tail else none)

/-- One attempt of the participant pattern
`\d{1,2}/\d{1,2}/\d{2,4},\s\d{1,2}:\d{2}.*-\s(.*?):` at a fixed start
position, returning the captured sender. -/
def waSenderAt (cs : List Char) : Option (List Char) :=
  (dtHead cs).bind (greedyDashThen (fun r => (lazyToColon r).map (fun p => p.1)))

/-- `re.search` of the participant pattern over a line: start positions are
tried left to right. -/
def waSenderSearch : List Char → Option (List Char)
  | [] => none
  | l@(_ :: rest) => waSenderAt l <|> waSenderSearch rest

/-- `extract_participants(file_path, file_type)` from `processor.py`.
`none` models a missing/unopenable file (the `except` branch leaves the
accumulated set empty); for `'Instagram'`, `rf.json = none` models a
`json.load` failure caught the same way.  The set of names is returned
sorted, as `sorted(list(participants))`. -/
def extract_participants (file_type : String) (file : Option RawFile) : List String :=
  let names : Finset String :=
    match file with
    | none => ∅
    | some rf =>
      if file_type = "Instagram" then
        match rf.json with
        | none => ∅
        | some data => data.participants.foldl (fun s p => insert p.name s) ∅
      else if file_type = "WhatsApp" then
        (linesOf rf.content).foldl
          (fun s line =>
            match waSenderSearch line with
            | some sender => insert (String.mk sender) s
            | none => s) ∅
      else ∅
  names.sort (· ≤ ·)

/-! ## FingerprintEngine (`api.py`, `extract_message_fingerprints`) -/

/-- The anchored WhatsApp message pattern of `extract_message_fingerprints`,
`^\d{1,2}/\d{1,2}/\d{2,4},\s\d{1,2}:\d{2}.*-\s(.*?):\s(.*)$` under
`re.match`, returning the captured (sender, content). -/
def waMsgLine (line : List Char) : Option (List Char × List Char) :=
  (dtHead line).bind (greedyDashThen lazyToColonWs)

/-- Python `l[-n:]` (the last `n` elements; for `n = 0` the whole list). -/
def lastSlice (n : Nat) (l : List α) : List α :=
  if n = 0 then l else l.drop (l.length - n)

/-- `extract_message_fingerprints(file_path, n=20)` from `api.py`.  `md5hex`
models `hashlib.md5(...).hexdigest()` (an external primitive); the code keeps
its first 12 characters.  `none` models a missing/unopenable file: the outer
`except` returns the still-empty set, as does a failed `json.load`
(`rf.json = none`) in the Instagram branch. -/
def extract_message_fingerprints (md5hex : String → String)
    (file : Option RawFile) (n : Nat) : Finset String :=
  match file with
  | none => ∅
  | some rf =>
    let detected := classify_file (some rf.content)
    if detected = "Instagram" then
      match rf.json with
      | none => ∅
      | some data =>
        let boundary := data.messages.take n ++ lastSlice n data.messages
        boundary.foldl
          (fun s msg =>
            if msg.content ≠ "" then
              insert ((md5hex (msg.sender_name ++ ":" ++ msg.content)).take 12) s
            else s) ∅
    else if detected = "WhatsApp" then
      let msg_lines := (linesOf rf.content).filterMap waMsgLine
      let boundary := msg_lines.take n ++ lastSlice n msg_lines
      boundary.foldl
        (fun s p =>
          if p.2 ≠ [] then
            insert ((md5hex (String.mk p.1 ++ ":" ++ String.mk p.2)).take 12) s
          else s) ∅
    else ∅

/-! ## Vendor-A locator and merger (`instagram_zip_processor.py`) -/

/-- An immediate subdirectory of the inbox folder: its name and its numbered
message files `message_N.json`, each file `none` when reading/parsing it
raises.  (`glob("message_*.json")` can also match non-numeric suffixes, on
which `int(...)` in the sort key would raise outside any `try`; such folders
are outside this model.) -/
structure IFolder where
  name : String
  files : List (Nat × Option ConvFile)
deriving DecidableEq

/-- The preview dict built by `get_conversation_preview`. -/
structure IPreview where
  display_name : String
  participants : List String
  message_count : Nat
deriving DecidableEq, Repr

/-- `get_conversation_preview(folder_path)`: `None` unless `message_1.json`
exists and parses; participant names get the mojibake repair pass `fix` (the
`encode('latin-1').decode('utf-8')` round trip, an external primitive that
swallows failure); the count sums message-array lengths over every numbered
file, unreadable files contributing 0. -/
def get_conversation_preview (fix : String → String) (folder : IFolder) : Option IPreview :=
  match folder.files.find? (fun p => p.1 == 1) with
  | none => none
  | some (_, none) => none
  | some (_, some data) =>
    let participants := data.participants.map (fun p => fix p.name)
    let message_count :=
      (folder.files.map (fun q => match q.2 with
        | some d => d.messages.length
        | none => 0)).sum
    let display_name :=
      String.intercalate ", " (participants.take 2) ++
        (if 2 < participants.length then " +" ++ toString (participants.length - 2) else "")
    some ⟨display_name, participants, message_count⟩

/-- One conversation candidate returned by `find_conversations`. -/
structure ICand where
  folder_name : String
  display_name : String
  participants : List String
  message_count : Nat
deriving DecidableEq, Repr

/-!
Python `list.sort` is a stable sort; for a total preorder the stable sort of
a list is unique, so every `list.sort(key=..., reverse=...)` call below is
modelled by the stable `List.insertionSort` under the corresponding total
preorder. -/

/-- Candidate order of `find_conversations`: message count descending. -/
def icandGe (a b : ICand) : Prop := b.message_count ≤ a.message_count

instance : DecidableRel icandGe := fun a b =>
  inferInstanceAs (Decidable (b.message_count ≤ a.message_count))

instance : IsTotal ICand icandGe := ⟨fun a b => Nat.le_total b.message_count a.message_count⟩

instance : IsTrans ICand icandGe := ⟨fun _ _ _ h1 h2 => le_trans h2 h1⟩

/-- `find_conversations(extracted_path)`: `none` models a missing inbox
subtree (empty list, not an error).  Folders without message files and
folders whose preview is `None` are skipped; candidates are sorted by
descending message count (stable). -/
def find_conversations (fix : String → String) (inbox : Option (List IFolder)) : List ICand :=
  match inbox with
  | none => []
  | some folders =>
    (folders.filterMap (fun folder =>
      if folder.files.isEmpty then none
      else match get_conversation_preview fix folder with
        | none => none
        | some p => some ⟨folder.name, p.display_name, p.participants, p.message_count⟩))
      |> List.insertionSort icandGe

/-- File-read order: numeric suffix descending (highest number = oldest). -/
def fileGe (a b : Nat × Option ConvFile) : Prop := b.1 ≤ a.1

instance : DecidableRel fileGe := fun a b => inferInstanceAs (Decidable (b.1 ≤ a.1))

instance : IsTotal (Nat × Option ConvFile) fileGe := ⟨fun a b => Nat.le_total b.1 a.1⟩

instance : IsTrans (Nat × Option ConvFile) fileGe := ⟨fun _ _ _ h1 h2 => le_trans h2 h1⟩

/-- Merged-message order: `timestamp_ms` ascending (`x.get('timestamp_ms', 0)`
never defaults in this model, where every parsed message carries the field). -/
def tsLe (a b : NMsg) : Prop := a.timestamp_ms ≤ b.timestamp_ms

instance : DecidableRel tsLe := fun a b =>
  inferInstanceAs (Decidable (a.timestamp_ms ≤ b.timestamp_ms))

instance : IsTotal NMsg tsLe := ⟨fun a b => Int.le_total a.timestamp_ms b.timestamp_ms⟩

instance : IsTrans NMsg tsLe := ⟨fun _ _ _ h1 h2 => le_trans h1 h2⟩

/-- The message array contributed by one file read in the collection loop: a
file that fails to read or parse is skipped by the per-file `try`. -/
def msgsOf : Option ConvFile → List NMsg
  | some d => d.messages
  | none => []

/-- `merge_conversation_messages(folder_path)`: `None` when no numbered
message files exist.  The base record is `message_1.json` when present,
otherwise the lowest-numbered file (the last of the descending sort); a base
file that fails to parse raises out of the function (no surrounding `try`),
which the embedding folds into `none` as its callers do.  All files'
message arrays are concatenated in descending-number read order and sorted
ascending by timestamp. -/
def merge_conversation_messages (files : List (Nat × Option ConvFile)) : Option ConvFile :=
  match List.insertionSort fileGe files with
  | [] => none
  | f :: fs =>
    match (match files.find? (fun p => p.1 == 1) with
           | some p => p.2
           | none => ((f :: fs).getLast (List.cons_ne_nil f fs)).2) with
    | none => none
    | some base =>
      some { base with messages :=
        List.insertionSort tsLe (((f :: fs).map (fun p => msgsOf p.2)).flatten) }

/-! ## Vendor-B locator and converter (`discord_zip_processor.py`) -/

/-- Outcome of reading one JSON file: absent, present but unparsable, or
parsed. -/
inductive FileRead (α : Type) where
  | missing
  | unparsable
  | ok (val : α)
deriving DecidableEq, Repr

/-- `channel.json`: `type` defaults to the empty string when the key is
absent; `id` is `none` when the key is absent. -/
structure ChannelData where
  id : Option String
  type : String
deriving DecidableEq, Repr

/-- The `Author` value of a Discord message: a dict with optional `ID` and
`Username` keys, or (older exports) some other value rendered by `str`. -/
inductive AuthorVal where
  | adict (ID : Option String) (Username : Option String)
  | astr (s : String)
deriving DecidableEq, Repr

/-- One entry of `messages.json`: `Contents` and `Timestamp` (defaulting to
empty strings when absent), plus the optional `Author`. -/
structure DMsg where
  Contents : String
  Timestamp : String
  Author : Option AuthorVal
deriving DecidableEq, Repr

/-- One channel subfolder of the Messages directory. -/
structure DFolder where
  name : String
  channel : FileRead ChannelData
  messages : FileRead (List DMsg)
deriving DecidableEq

/-- An extracted Discord archive whose Messages folder was found: the loaded
`index.json` map (already empty when that file is missing or unparsable, as
`load_index_json` swallows both) and the channel subfolders in
directory-listing order. -/
structure DExtract where
  index : List (String × String)
  folders : List DFolder

/-- Python `s.startswith(pre)` (codepoint model, as in CPython). -/
def pyStartsWith (pre s : String) : Bool := beginsWith pre.toList s.toList

/-- Python `dict.get(k, dflt)` over an insertion-ordered association list
with unique keys. -/
def dictGet (m : List (String × String)) (k dflt : String) : String :=
  match m.find? (fun p => p.1 == k) with
  | some p => p.2
  | none => dflt

/-- One conversation unit returned by `find_dm_conversations`. -/
structure DUnit where
  folder_name : String
  display_name : String
  message_count : Nat
  channel_id : String
deriving DecidableEq, Repr

/-- Unit order of `find_dm_conversations`: message count descending. -/
def dunitGe (a b : DUnit) : Prop := b.message_count ≤ a.message_count

instance : DecidableRel dunitGe := fun a b =>
  inferInstanceAs (Decidable (b.message_count ≤ a.message_count))

instance : IsTotal DUnit dunitGe := ⟨fun a b => Nat.le_total b.message_count a.message_count⟩

instance : IsTrans DUnit dunitGe := ⟨fun _ _ _ h1 h2 => le_trans h2 h1⟩

/-- The record built for one retained DM channel (the loop body of
`find_dm_conversations` after the DM check): channel id from `channel.json`
with the folder name minus its `c` marker as default, message count from
`messages.json` (0 when missing or unparsable), display name resolved from
the index (default `"DM <id>"`) with the `"Direct Message with "` marker
stripped when present. -/
def mkUnit (index : List (String × String)) (folder : DFolder) (cd : ChannelData) : DUnit :=
  let channel_id := cd.id.getD (folder.name.drop 1)
  let message_count := match folder.messages with
    | .ok msgs => msgs.length
    | _ => 0
  let dn := dictGet index channel_id ("DM " ++ channel_id)
  let display_name := if pyStartsWith "Direct Message with " dn then dn.drop 20 else dn
  ⟨folder.name, display_name, message_count, channel_id⟩

/-- The per-folder body of the `find_dm_conversations` loop: skip folders
not starting with the `c` marker, without a readable `channel.json`, or not
typed `DM`; otherwise build the unit. -/
def retainedUnit (index : List (String × String)) (folder : DFolder) : Option DUnit :=
  if pyStartsWith "c" folder.name then
    match folder.channel with
    | .ok cd => if cd.type = "DM" then some (mkUnit index folder cd) else none
    | _ => none
  else none

/-- `find_dm_conversations(extracted_path)`: `none` models a missing Messages
folder.  Retained units are sorted by descending message count (stable). -/
def find_dm_conversations (ex : Option DExtract) : List DUnit :=
  match ex with
  | none => []
  | some e => List.insertionSort dunitGe (e.folders.filterMap (retainedUnit e.index))

/-- Python dict insertion: replace in place when the key exists, else append. -/
def dinsert (m : List (String × String)) (k v : String) : List (String × String) :=
  if m.any (fun p => p.1 == k) then
    m.map (fun p => if p.1 == k then (k, v) else p)
  else m ++ [(k, v)]

/-- `build_user_id_map(messages_json_path)`: scan the messages for dict
`Author` values whose `ID` and `Username` are both present and truthy
(non-empty). -/
def build_user_id_map (msgs : List DMsg) : List (String × String) :=
  msgs.foldl
    (fun m msg =>
      match msg.Author with
      | some (.adict (some uid) (some uname)) =>
        if uid ≠ "" && uname ≠ "" then dinsert m uid uname else m
      | _ => m) []

/-- Sender-name resolution for one converted message:
`Author.get('Username', Author.get('ID', 'Unknown'))` for dict authors,
`str(author)` otherwise, `'Discord_User'` when `Author` is absent. -/
def discordSender (msg : DMsg) : String :=
  match msg.Author with
  | some (.adict uid uname) => uname.getD (uid.getD "Unknown")
  | some (.astr s) => s
  | none => "Discord_User"

/-- `username.rsplit('#', 1)[0]` guarded by `'#' in username`: everything
before the last `#` (the whole string when no `#` occurs). -/
def dropHashTag (s : String) : String :=
  let cs := s.toList
  if cs.contains '#' then
    String.mk (((cs.reverse.dropWhile (fun c => c ≠ '#')).drop 1).reverse)
  else s

/-- The per-message conversion of the Discord-to-Instagram loop: messages
with empty `Contents` are skipped; the timestamp is parsed with
`epochSeconds` (epoch 0 on failure) and scaled to milliseconds; the sender
is resolved by `discordSender`. -/
def convertMsg (epochSeconds : String → Option Int) (msg : DMsg) : Option NMsg :=
  if msg.Contents ≠ "" then
    some { sender_name := discordSender msg, content := msg.Contents,
           timestamp_ms :=
             match epochSeconds msg.Timestamp with
             | some s => s * 1000
             | none => 0 }
  else none

/-- The converted record returned by `convert_discord_to_instagram_format`. -/
structure DResult where
  participants : List Participant
  messages : List NMsg
  has_sender_info : Bool
  warning : Option String
deriving DecidableEq, Repr

/-- The data-quality warning attached when no real sender attribution was
found. -/
def dwarnText : String :=
  "This Discord export uses an older format without sender information. " ++
  "All messages will appear as \x27Discord_User\x27. For proper AI training, " ++
  "request a new data export from Discord which includes Author data."

/-- The participant-name resolution of
`convert_discord_to_instagram_format`, in code priority order: (a) the
distinct usernames of the user-id map, in first-occurrence order; (b) when
that is empty, the index display name of the channel id (stripping the
conversation marker and any trailing `#` discriminator) plus the implicit
`Me`, provided `channel.json` is readable (`none` models its `json.load`
raising); (c) handled by the caller: the `Discord_User` placeholder. -/
def discordPartNames (index : List (String × String)) (folder : DFolder)
    (discord_messages : List DMsg) : Option (List String) :=
  let fromAuthors : List String :=
    (build_user_id_map discord_messages).foldl
      (fun acc p => if acc.contains p.2 then acc else acc ++ [p.2]) []
  if fromAuthors.isEmpty then
    match folder.channel with
    | .missing => some []
    | .unparsable => none
    | .ok cd =>
      let channel_id := cd.id.getD ""
      if channel_id ≠ "" then
        let display_name := dictGet index channel_id ""
        if pyStartsWith "Direct Message with " display_name then
          let username := dropHashTag (display_name.drop 20)
          let base := if username ≠ "" then [username] else []
          some (if base.contains "Me" then base else base ++ ["Me"])
        else some []
      else some []
  else some fromAuthors

/-- `convert_discord_to_instagram_format(folder_path)`.  `epochSeconds`
models `datetime.strptime(ts, "%Y-%m-%d %H:%M:%S").timestamp()` (`none` for
a `ValueError`, which makes the message default to epoch 0); `index` is the
loaded `index.json` of the parent Messages folder.  A missing
`messages.json` returns `None`; an unparsable `messages.json`, or an
unparsable `channel.json` read during the participant fallback, raises into
the outer `try` and also yields `None`. -/
def convert_discord_to_instagram_format (epochSeconds : String → Option Int)
    (index : List (String × String)) (folder : DFolder) : Option DResult :=
  match folder.messages with
  | .missing => none
  | .unparsable => none
  | .ok discord_messages =>
    match discordPartNames index folder discord_messages with
    | none => none
    | some partNames =>
      some { participants :=
               if partNames.isEmpty then [Participant.mk "Discord_User"]
               else partNames.map Participant.mk
             messages :=
               (List.insertionSort tsLe
                 (discord_messages.filterMap (convertMsg epochSeconds))).reverse
             has_sender_info :=
               (discord_messages.filterMap (convertMsg epochSeconds)).any
                 (fun m => m.sender_name ≠ "Unknown" && m.sender_name ≠ "Discord_User")
             warning :=
               if (discord_messages.filterMap (convertMsg epochSeconds)).any
                   (fun m => m.sender_name ≠ "Unknown" && m.sender_name ≠ "Discord_User") then
                 none
               else some dwarnText }

/-! ## Theorems -/

/-- The per-candidate success condition of the duplicate gate as the spec
states it: a non-empty candidate fingerprint set whose overlap ratio
(intersection size over the smaller set size) reaches the threshold. -/
def overlapHit (new_fps : Finset String) (threshold : ℚ) (p : String × Finset String) : Bool :=
  decide (p.2 ≠ ∅) &&
    decide (threshold ≤ ((new_fps ∩ p.2).card : ℚ) / ((min new_fps.card p.2.card : Nat) : ℚ))

/-- C1: an empty new fingerprint set yields `(false, none)`; otherwise the
result is `(true, name)` exactly for the first candidate, in iteration
order, whose fingerprint set is non-empty and whose overlap ratio
`|new ∩ cand| / min(|new|, |cand|)` reaches the threshold (in particular a
4-element new set against a single contained 1-element candidate is a
duplicate at threshold 0.8, since its ratio is 1), and `(false, none)` when
no candidate reaches the threshold. -/
theorem check_overlap_first_match (new_fps : Finset String)
    (existing : List (String × Finset String)) (threshold : ℚ) :
    check_content_overlap new_fps existing threshold =
      if new_fps = ∅ then (false, none)
      else
        match existing.find? (overlapHit new_fps threshold) with
        | some p => (true, some p.1)
        | none => (false, none) := by
  unfold check_content_overlap
  by_cases hne : new_fps = ∅
  · simp [hne]
  · rw [if_neg hne, if_neg hne]
    induction existing with
    | nil => simp [overlapLoop]
    | cons head tail ih =>
      obtain ⟨filename, fps⟩ := head
      rw [overlapLoop]
      by_cases hfps : fps = ∅
      · have hh : overlapHit new_fps threshold (filename, fps) = false := by
          rw [Bool.eq_false_iff]
          intro hc
          simp only [overlapHit, Bool.and_eq_true, decide_eq_true_eq] at hc
          exact hc.1 hfps
        rw [if_pos hfps, ih, List.find?_cons, hh]
      · have hmin : 0 < min new_fps.card fps.card :=
          Nat.lt_min.mpr ⟨Finset.card_pos.mpr (Finset.nonempty_iff_ne_empty.mpr hne),
            Finset.card_pos.mpr (Finset.nonempty_iff_ne_empty.mpr hfps)⟩
        rw [if_neg hfps]
        by_cases hr : threshold ≤
            ((new_fps ∩ fps).card : ℚ) / ((min new_fps.card fps.card : Nat) : ℚ)
        · have hh : overlapHit new_fps threshold (filename, fps) = true := by
            simp only [overlapHit, Bool.and_eq_true, decide_eq_true_eq]
            exact ⟨hfps, hr⟩
          rw [if_pos ⟨hmin, hr⟩, List.find?_cons, hh]
        · have hh : overlapHit new_fps threshold (filename, fps) = false := by
            rw [Bool.eq_false_iff]
            intro hc
            simp only [overlapHit, Bool.and_eq_true, decide_eq_true_eq] at hc
            exact hr hc.2
          rw [if_neg (fun hc => hr hc.2), ih, List.find?_cons, hh]

/-- C5: extraction is idempotent per archive id — extracting archive A1 and
then A2 under the same id equals extracting A2 alone; the id's directory
holds exactly a fresh extraction of A2, and no other id's directory is
touched. -/
theorem extract_zip_idempotent (fs : ZipFS) (zip_id : String)
    (a1 a2 : ZipArchive) (j : String) :
    extract_zip (extract_zip fs zip_id a1) zip_id a2 j = extract_zip fs zip_id a2 j ∧
    extract_zip fs zip_id a2 j = if j = zip_id then some (extractall [] a2) else fs j := by
  constructor
  · by_cases h : j = zip_id
    · simp [extract_zip, mkdirFresh, h]
    · simp only [extract_zip, rmtreeIfExists, mkdirFresh, if_neg h]
      split_ifs <;> simp [h]
  · by_cases h : j = zip_id
    · simp [extract_zip, mkdirFresh, h]
    · simp only [extract_zip, rmtreeIfExists, mkdirFresh, if_neg h]
      split_ifs <;> simp [h]

/-- A prefix containing both structural markers and a trailing text-pattern
match, but not starting with a JSON opener. -/
def mixedContent : List Char :=
  "1/1/11, 1:11 x - y \"participants\": \"messages\":".toList

/-- C3 as frozen is false: this prefix contains both the participants marker
and the messages marker, yet `classify` returns the plain-text dialect, not
StructuredDialectA, because the trimmed prefix does not start with a JSON
opener. -/
theorem classify_markers_cex :
    containsSub participantsMarker mixedContent = true ∧
    containsSub messagesMarker mixedContent = true ∧
    classifyContent mixedContent = "WhatsApp" := by
  refine ⟨by decide, by decide, by decide⟩

/-- C3 amended: for every byte prefix whose trimmed form starts with a JSON
opener and which contains both the participants-marker substring and the
messages-marker substring, classify returns StructuredDialectA (Instagram),
regardless of any trailing substrings matching the plain-text
timestamp-dash pattern. -/
theorem classify_json_markers (content : List Char)
    (hstart : (pyStrip content).head? = some '\x7b' ∨ (pyStrip content).head? = some '[')
    (hp : containsSub participantsMarker content = true)
    (hm : containsSub messagesMarker content = true) :
    classifyContent content = "Instagram" := by
  simp only [classifyContent]
  cases hps : pyStrip content with
  | nil =>
    rw [hps] at hstart
    rcases hstart with h | h <;> exact absurd h (by simp)
  | cons c rest =>
    rw [hps] at hstart
    simp only [List.head?, Option.some.injEq] at hstart
    rcases hstart with h | h <;> subst h <;> simp [hp, hm]

/-- C3 witness: a JSON-opening prefix with both markers and even a trailing
WhatsApp-style line is classified as Instagram. -/
theorem classify_json_markers_witness :
    classifyContent "\x7b \"participants\": [], \"messages\": [] 1/1/11, 1:11 - x ".toList =
      "Instagram" :=
  classify_json_markers _ (Or.inl (by decide)) (by decide) (by decide)

/-- On a pairwise-related list every member equals the last element or is
related to it. -/
lemma rel_getLast_of_pairwise {α : Type _} {R : α → α → Prop} :
    ∀ (l : List α), l.Pairwise R → ∀ (hne : l ≠ []) (x : α), x ∈ l →
      x = l.getLast hne ∨ R x (l.getLast hne) := by
  intro l
  induction l with
  | nil => intro _ hne; exact absurd rfl hne
  | cons a t ih =>
    intro hp hne x hx
    rcases List.pairwise_cons.mp hp with ⟨ha, ht⟩
    cases t with
    | nil =>
      rcases List.mem_singleton.mp hx with rfl
      left
      rfl
    | cons b t2 =>
      rw [List.getLast_cons (List.cons_ne_nil b t2)]
      rcases List.mem_cons.mp hx with rfl | hx2
      · exact Or.inr (ha _ (List.getLast_mem (List.cons_ne_nil b t2)))
      · exact ih ht (List.cons_ne_nil b t2) x hx2

/-- The message list of a successful merge: the concatenation over the
descending-number file order, sorted ascending by timestamp. -/
def mergedOrder (files : List (Nat × Option ConvFile)) : List NMsg :=
  List.insertionSort tsLe
    (((List.insertionSort fileGe files).map (fun p => msgsOf p.2)).flatten)

/-- Computation rule for a merge whose sorted file list and base file are
known. -/
lemma merge_cons_eq {files : List (Nat × Option ConvFile)}
    {f : Nat × Option ConvFile} {fs : List (Nat × Option ConvFile)}
    (heq : List.insertionSort fileGe files = f :: fs) {base : ConvFile}
    (hbase : (match files.find? (fun p => p.1 == 1) with
              | some p => p.2
              | none => ((f :: fs).getLast (List.cons_ne_nil f fs)).2) = some base) :
    merge_conversation_messages files = some { base with messages := mergedOrder files } := by
  unfold merge_conversation_messages
  split
  · rename_i h0
    rw [heq] at h0
    exact absurd h0 (List.cons_ne_nil _ _)
  · rename_i f2 fs2 heq2
    rw [heq] at heq2
    injection heq2 with h1 h2
    subst h1
    subst h2
    rw [hbase, mergedOrder, heq]

/-- Structure of a successful vendor-A merge: the result is some base file
with its messages replaced by the merged order; the base is the file `find?`
locates under number 1 when one exists, otherwise the last file of the
descending sort. -/
lemma merge_structure {files : List (Nat × Option ConvFile)} {r : ConvFile}
    (h : merge_conversation_messages files = some r) :
    ∃ base : ConvFile,
      r = { base with messages := mergedOrder files } ∧
      ((∃ p, files.find? (fun p => p.1 == 1) = some p ∧ p.2 = some base) ∨
        (files.find? (fun p => p.1 == 1) = none ∧
          ∃ hne : List.insertionSort fileGe files ≠ [],
            ((List.insertionSort fileGe files).getLast hne).2 = some base)) := by
  unfold merge_conversation_messages at h
  split at h
  · exact absurd h (by simp)
  · rename_i f fs heq
    split at h
    · exact absurd h (by simp)
    · rename_i base hbase
      have hr := Option.some_inj.mp h
      refine ⟨base, ?_, ?_⟩
      · rw [mergedOrder, heq]
        exact hr.symm
      · split at hbase
        · rename_i p hfind
          exact Or.inl ⟨p, hfind, hbase⟩
        · rename_i hfind
          have hne : List.insertionSort fileGe files ≠ [] := by
            rw [heq]
            exact List.cons_ne_nil f fs
          refine Or.inr ⟨hfind, hne, ?_⟩
          have h1 : some ((List.insertionSort fileGe files).getLast hne) =
              some ((f :: fs).getLast (List.cons_ne_nil f fs)) := by
            rw [← List.getLast?_eq_getLast _ hne,
              ← List.getLast?_eq_getLast _ (List.cons_ne_nil f fs), heq]
          rw [Option.some_inj.mp h1]
          exact hbase

/-- C2: a vendor-A conversation folder with at least one numbered message
file (each of which parses) merges to a record whose messages are a
permutation of the concatenation of all the numbered files' message arrays,
sorted ascending by `timestamp_ms`; a folder with no numbered message files
merges to `None`. -/
theorem merge_sorted_concat (files : List (Nat × Option ConvFile))
    (hread : ∀ p ∈ files, p.2 ≠ none) :
    (files = [] → merge_conversation_messages files = none) ∧
    (files ≠ [] → ∃ r, merge_conversation_messages files = some r ∧
      r.messages.Perm ((files.map (fun p => msgsOf p.2)).flatten) ∧
      List.Sorted tsLe r.messages) := by
  constructor
  · rintro rfl
    rfl
  · intro hne
    cases heq : List.insertionSort fileGe files with
    | nil =>
      have hp := List.perm_insertionSort fileGe files
      rw [heq] at hp
      exact absurd hp.nil_eq.symm hne
    | cons f fs =>
      have hsp : (f :: fs).Perm files := by
        rw [← heq]
        exact List.perm_insertionSort fileGe files
      obtain ⟨base, hbase⟩ : ∃ base,
          (match files.find? (fun p => p.1 == 1) with
           | some p => p.2
           | none => ((f :: fs).getLast (List.cons_ne_nil f fs)).2) = some base := by
        cases hfind : files.find? (fun p => p.1 == 1) with
        | some p =>
          have hmem := List.mem_of_find?_eq_some hfind
          cases hp2 : p.2 with
          | none => exact absurd hp2 (hread p hmem)
          | some b => exact ⟨b, hp2⟩
        | none =>
          have hlmem : ((f :: fs).getLast (List.cons_ne_nil f fs)) ∈ f :: fs :=
            List.getLast_mem _
          have hmem := hsp.mem_iff.mp hlmem
          cases hp2 : ((f :: fs).getLast (List.cons_ne_nil f fs)).2 with
          | none => exact absurd hp2 (hread _ hmem)
          | some b => exact ⟨b, rfl⟩
      refine ⟨_, merge_cons_eq heq hbase, ?_, ?_⟩
      · refine (List.perm_insertionSort tsLe _).trans ?_
        rw [heq]
        exact (hsp.map _).flatten
      · exact List.sorted_insertionSort tsLe _

/-- Concrete two-file folder for the C2 witness: `message_1.json` holds
timestamps 300 and 400, `message_2.json` holds 100 and 200. -/
def filesC2 : List (Nat × Option ConvFile) :=
  [(1, some ⟨[⟨"Alice"⟩, ⟨"Bob"⟩], "conv",
      [⟨"Alice", "x", 300⟩, ⟨"Bob", "y", 400⟩]⟩),
   (2, some ⟨[⟨"Alice"⟩, ⟨"Bob"⟩], "conv",
      [⟨"Alice", "a", 100⟩, ⟨"Bob", "b", 200⟩]⟩)]

/-- C2 witness: the two-file folder merges; its messages are the sorted
concatenation, with timestamps `[100, 200, 300, 400]`. -/
theorem merge_sorted_concat_witness :
    (∃ r, merge_conversation_messages filesC2 = some r ∧
      r.messages.Perm ((filesC2.map (fun p => msgsOf p.2)).flatten) ∧
      List.Sorted tsLe r.messages) ∧
    (merge_conversation_messages filesC2).map (fun r => r.messages.map NMsg.timestamp_ms) =
      some [100, 200, 300, 400] :=
  ⟨(merge_sorted_concat filesC2 (by decide)).2 (by decide), by decide⟩

/-- C10: on every successful vendor-A merge, the fields other than
`messages` (participants and the `title` stand-in for the remaining fields)
come from the base file: an entry numbered 1 when one exists, otherwise a
lowest-numbered entry. -/
theorem merge_base_frame (files : List (Nat × Option ConvFile)) (r : ConvFile)
    (h : merge_conversation_messages files = some r) :
    ∃ p ∈ files, ∃ base : ConvFile, p.2 = some base ∧
      r.participants = base.participants ∧ r.title = base.title ∧
      (if 1 ∈ files.map Prod.fst then p.1 = 1 else ∀ q ∈ files, p.1 ≤ q.1) := by
  obtain ⟨base, hr, hcase⟩ := merge_structure h
  have hpart : r.participants = base.participants := by rw [hr]
  have htitle : r.title = base.title := by rw [hr]
  rcases hcase with ⟨p, hfind, hp2⟩ | ⟨hfind, hne, hlast⟩
  · have hmem := List.mem_of_find?_eq_some hfind
    have hp1 : p.1 = 1 := by
      have hbeq := List.find?_some hfind
      simpa using hbeq
    have hcond : 1 ∈ files.map Prod.fst := List.mem_map.mpr ⟨p, hmem, hp1⟩
    exact ⟨p, hmem, base, hp2, hpart, htitle, by rw [if_pos hcond]; exact hp1⟩
  · have hpmemL : (List.insertionSort fileGe files).getLast hne ∈
        List.insertionSort fileGe files := List.getLast_mem hne
    have hpmem := (List.perm_insertionSort fileGe files).mem_iff.mp hpmemL
    have hncond : ¬ (1 ∈ files.map Prod.fst) := by
      intro hmem1
      rcases List.mem_map.mp hmem1 with ⟨q, hq, hq1⟩
      have hnone := List.find?_eq_none.mp hfind q hq
      exact hnone (by simp [hq1])
    refine ⟨_, hpmem, base, hlast, hpart, htitle, ?_⟩
    rw [if_neg hncond]
    intro q hq
    have hqL := (List.perm_insertionSort fileGe files).mem_iff.mpr hq
    have hpw : (List.insertionSort fileGe files).Pairwise fileGe :=
      List.sorted_insertionSort fileGe files
    rcases rel_getLast_of_pairwise _ hpw hne q hqL with h1 | h1
    · rw [h1]
    · exact h1

/-- Concrete folder for the C10 witness: no file numbered 1, so the base is
the lowest-numbered file (number 2). -/
def filesC10 : List (Nat × Option ConvFile) :=
  [(3, some ⟨[⟨"Zoe"⟩], "t3", [⟨"Zoe", "m", 7⟩]⟩),
   (2, some ⟨[⟨"Kay"⟩], "t2", []⟩)]

/-- C10 witness: the merge of `filesC10` succeeds and the frame property
holds at it. -/
theorem merge_base_frame_witness :
    ∃ p ∈ filesC10, ∃ base : ConvFile, p.2 = some base ∧
      (ConvFile.mk [⟨"Kay"⟩] "t2" [⟨"Zoe", "m", 7⟩]).participants = base.participants ∧
      (ConvFile.mk [⟨"Kay"⟩] "t2" [⟨"Zoe", "m", 7⟩]).title = base.title ∧
      (if 1 ∈ filesC10.map Prod.fst then p.1 = 1 else ∀ q ∈ filesC10, p.1 ≤ q.1) :=
  merge_base_frame filesC10 (ConvFile.mk [⟨"Kay"⟩] "t2" [⟨"Zoe", "m", 7⟩]) (by decide)

/-- Structure of a successful vendor-B conversion: the messages are the
reversed timestamp-sorted conversions of the source messages with non-empty
contents, the sender flag is their placeholder scan, and the warning is
attached exactly when the flag is off. -/
lemma convert_structure {epochSeconds : String → Option Int}
    {index : List (String × String)} {folder : DFolder} {dr : DResult}
    (h : convert_discord_to_instagram_format epochSeconds index folder = some dr) :
    ∃ msgs, folder.messages = FileRead.ok msgs ∧
      dr.messages =
        (List.insertionSort tsLe (msgs.filterMap (convertMsg epochSeconds))).reverse ∧
      dr.has_sender_info = (msgs.filterMap (convertMsg epochSeconds)).any
        (fun m => m.sender_name ≠ "Unknown" && m.sender_name ≠ "Discord_User") ∧
      dr.warning = (if dr.has_sender_info then none else some dwarnText) := by
  unfold convert_discord_to_instagram_format at h
  split at h
  · exact absurd h (by simp)
  · exact absurd h (by simp)
  · rename_i msgs hfm
    split at h
    · exact absurd h (by simp)
    · rename_i partNames hpart
      have hdr := Option.some_inj.mp h
      refine ⟨msgs, hfm, ?_, ?_, ?_⟩
      · rw [← hdr]
      · rw [← hdr]
      · rw [← hdr]

/-- Two vendor-A files holding the same message, for the C4 counterexample. -/
def dupMsgFiles : List (Nat × Option ConvFile) :=
  [(1, some ⟨[⟨"Alice"⟩], "conv", [⟨"Alice", "hi", 100⟩]⟩),
   (2, some ⟨[⟨"Alice"⟩], "conv", [⟨"Alice", "hi", 100⟩]⟩)]

/-- C4 as frozen is false: merging a vendor-A folder whose two numbered
files contain the same message yields a record in which that message occurs
twice — the merged list is not deduplicated. -/
theorem merge_not_dedup_cex :
    merge_conversation_messages dupMsgFiles =
      some ⟨[⟨"Alice"⟩], "conv", [⟨"Alice", "hi", 100⟩, ⟨"Alice", "hi", 100⟩]⟩ ∧
    ¬ ([(⟨"Alice", "hi", 100⟩ : NMsg), ⟨"Alice", "hi", 100⟩].Nodup) :=
  ⟨by decide, by decide⟩

/-- C4 amended: neither merger deduplicates — each preserves input message
multiplicities exactly.  A successful vendor-A merge's messages are a
permutation of the concatenation of all numbered files' message arrays (so
a message present in two files occurs twice), and a successful vendor-B
conversion's messages are a permutation of the per-message conversions of
the non-empty source messages. -/
theorem merger_no_dedup_multiplicity
    (files : List (Nat × Option ConvFile)) (r : ConvFile)
    (h : merge_conversation_messages files = some r)
    (epochSeconds : String → Option Int) (index : List (String × String))
    (folder : DFolder) (dr : DResult)
    (hd : convert_discord_to_instagram_format epochSeconds index folder = some dr) :
    r.messages.Perm ((files.map (fun p => msgsOf p.2)).flatten) ∧
    ∃ msgs, folder.messages = FileRead.ok msgs ∧
      dr.messages.Perm (msgs.filterMap (convertMsg epochSeconds)) := by
  constructor
  · obtain ⟨base, hr, _⟩ := merge_structure h
    rw [hr]
    refine (List.perm_insertionSort tsLe _).trans ?_
    exact ((List.perm_insertionSort fileGe files).map _).flatten
  · obtain ⟨msgs, hok, hmsgs, _, _⟩ := convert_structure hd
    refine ⟨msgs, hok, ?_⟩
    rw [hmsgs]
    exact (List.reverse_perm _).trans (List.perm_insertionSort tsLe _)

/-- A concrete Discord folder with one non-empty and one empty message, for
the C4 and C9 witnesses. -/
def dfolderC4 : DFolder :=
  ⟨"c7", FileRead.ok ⟨some "7", "DM"⟩,
    FileRead.ok [⟨"hello", "2025-06-16 09:24:12", some (.adict (some "1") (some "u1"))⟩,
                 ⟨"", "2025-06-16 09:25:00", some (.adict (some "2") (some "u2"))⟩]⟩

/-- The vendor-A merge result at `dupMsgFiles`. -/
def mergeC4r : ConvFile :=
  ⟨[⟨"Alice"⟩], "conv", [⟨"Alice", "hi", 100⟩, ⟨"Alice", "hi", 100⟩]⟩

/-- The vendor-B conversion result at `dfolderC4` under a constant clock. -/
def drC4 : DResult := ⟨[⟨"u1"⟩, ⟨"u2"⟩], [⟨"u1", "hello", 0⟩], true, none⟩

/-- C4 witness: both halves of the amended claim, instantiated at concrete
folders. -/
theorem merger_no_dedup_multiplicity_witness :
    mergeC4r.messages.Perm ((dupMsgFiles.map (fun p => msgsOf p.2)).flatten) ∧
    ∃ msgs, dfolderC4.messages = FileRead.ok msgs ∧
      drC4.messages.Perm (msgs.filterMap (convertMsg (fun _ => some 0))) :=
  merger_no_dedup_multiplicity dupMsgFiles mergeC4r (by decide)
    (fun _ => some 0) [] dfolderC4 drC4 (by decide)

/-- C9: on every successful vendor-B conversion, `has_sender_info` is true
iff some converted message's sender name is neither placeholder
(`Unknown` / `Discord_User`), and the warning string is attached exactly
when `has_sender_info` is false. -/
theorem convert_sender_flag (epochSeconds : String → Option Int)
    (index : List (String × String)) (folder : DFolder) (dr : DResult)
    (h : convert_discord_to_instagram_format epochSeconds index folder = some dr) :
    (dr.has_sender_info = true ↔
      ∃ m ∈ dr.messages, m.sender_name ≠ "Unknown" ∧ m.sender_name ≠ "Discord_User") ∧
    (dr.warning ≠ none ↔ dr.has_sender_info = false) := by
  obtain ⟨msgs, hok, hmsgs, hflag, hwarn⟩ := convert_structure h
  constructor
  · rw [hflag, List.any_eq_true]
    constructor
    · rintro ⟨m, hm, hcond⟩
      refine ⟨m, ?_, ?_⟩
      · rw [hmsgs, List.mem_reverse]
        exact (List.perm_insertionSort tsLe _).mem_iff.mpr hm
      · simpa using hcond
    · rintro ⟨m, hm, hcond⟩
      refine ⟨m, ?_, by simpa using hcond⟩
      rw [hmsgs, List.mem_reverse] at hm
      exact (List.perm_insertionSort tsLe _).mem_iff.mp hm
  · rw [hwarn]
    cases hb : dr.has_sender_info <;> simp

/-- C9 witness: the flag/warning equivalence instantiated at a concrete
conversion with real sender attribution. -/
theorem convert_sender_flag_witness :
    (drC4.has_sender_info = true ↔
      ∃ m ∈ drC4.messages, m.sender_name ≠ "Unknown" ∧ m.sender_name ≠ "Discord_User") ∧
    (drC4.warning ≠ none ↔ drC4.has_sender_info = false) :=
  convert_sender_flag (fun _ => some 0) [] dfolderC4 drC4 (by decide)

/-- C6: vendor-B enumeration returns exactly the marker-named channel
folders whose descriptor tags them `DM` — every unit in the result comes
from such a folder via the loop body `mkUnit` (display name resolved from
the index with the `"Direct Message with "` marker stripped, count from the
channel's message array), every such folder's unit is in the result, the
result is exactly the retained units up to order, and it is sorted by
descending message count. -/
theorem find_dm_exact (e : DExtract) :
    (find_dm_conversations (some e)).Perm (e.folders.filterMap (retainedUnit e.index)) ∧
    List.Sorted dunitGe (find_dm_conversations (some e)) ∧
    (∀ u ∈ find_dm_conversations (some e), ∃ f ∈ e.folders, ∃ cd,
      pyStartsWith "c" f.name = true ∧ f.channel = FileRead.ok cd ∧ cd.type = "DM" ∧
      u = mkUnit e.index f cd) ∧
    (∀ f ∈ e.folders, pyStartsWith "c" f.name = true → ∀ cd,
      f.channel = FileRead.ok cd → cd.type = "DM" →
      mkUnit e.index f cd ∈ find_dm_conversations (some e)) := by
  refine ⟨List.perm_insertionSort dunitGe _, List.sorted_insertionSort dunitGe _, ?_, ?_⟩
  · intro u hu
    have hu2 : u ∈ e.folders.filterMap (retainedUnit e.index) :=
      (List.perm_insertionSort dunitGe _).mem_iff.mp hu
    rcases List.mem_filterMap.mp hu2 with ⟨f, hf, hval⟩
    simp only [retainedUnit] at hval
    split at hval
    · rename_i hstart
      split at hval
      · rename_i cd hchan
        split at hval
        · rename_i htype
          exact ⟨f, hf, cd, hstart, hchan, htype, (Option.some_inj.mp hval).symm⟩
        · exact absurd hval (by simp)
      · exact absurd hval (by simp)
    · exact absurd hval (by simp)
  · intro f hf hstart cd hchan htype
    have hval : retainedUnit e.index f = some (mkUnit e.index f cd) := by
      simp [retainedUnit, hstart, hchan, htype]
    exact (List.perm_insertionSort dunitGe _).mem_iff.mpr
      (List.mem_filterMap.mpr ⟨f, hf, hval⟩)

/-- The concrete DM channel and a guild channel for the C6 witness. -/
def dmFolder6 : DFolder :=
  ⟨"c7", FileRead.ok ⟨some "7", "DM"⟩,
    FileRead.ok [⟨"a", "2025-06-16 09:24:12", some (.adict (some "1") (some "u1"))⟩,
                 ⟨"b", "2025-06-16 09:25:00", some (.adict (some "2") (some "u2"))⟩]⟩

/-- A non-DM channel folder, excluded by enumeration. -/
def guildFolder6 : DFolder :=
  ⟨"c8", FileRead.ok ⟨some "8", "GUILD_TEXT"⟩,
    FileRead.ok [⟨"c", "2025-06-16 09:26:00", some (.adict (some "3") (some "u3"))⟩]⟩

/-- The extracted archive for the C6 witness. -/
def dextract6 : DExtract :=
  ⟨[("7", "Direct Message with pal#0"), ("8", "guild chat")],
   [dmFolder6, guildFolder6]⟩

/-- C6 witness: the DM channel's unit is enumerated and the guild channel is
excluded entirely — the result is exactly the one DM unit. -/
theorem find_dm_exact_witness :
    mkUnit dextract6.index dmFolder6 ⟨some "7", "DM"⟩ ∈
      find_dm_conversations (some dextract6) ∧
    (find_dm_conversations (some dextract6)).map DUnit.folder_name = ["c7"] :=
  ⟨(find_dm_exact dextract6).2.2.2 dmFolder6 (by decide) (by decide)
      ⟨some "7", "DM"⟩ (by decide) (by decide),
   by decide⟩

/-- An inbox subdirectory with a numbered message file but no
`message_1.json`, for the C8 counterexample. -/
def skippedIFolder : IFolder :=
  ⟨"conv_a", [(2, some ⟨[⟨"A"⟩], "t", [⟨"A", "x", 1⟩]⟩)]⟩

/-- C8 as frozen is false: an inbox subdirectory holding a numbered message
file — but no `message_1.json` — yields no conversation candidate, because
enumeration requires the preview, which requires a parseable
`message_1.json`. -/
theorem find_conversations_cex :
    skippedIFolder.files ≠ [] ∧
    find_conversations (fun s => s) (some [skippedIFolder]) = [] :=
  ⟨by decide, by decide⟩

/-- C8 amended: every immediate inbox subdirectory whose `message_1.json`
exists and parses appears as a conversation candidate (subdirectories with
numbered files but no parseable `message_1.json` are skipped). -/
theorem find_conversations_complete (fix : String → String)
    (folders : List IFolder) (folder : IFolder) (d : ConvFile)
    (hmem : folder ∈ folders)
    (h1 : folder.files.find? (fun p => p.1 == 1) = some (1, some d)) :
    ∃ c ∈ find_conversations fix (some folders), c.folder_name = folder.name := by
  have hnonempty : folder.files.isEmpty = false := by
    cases hf : folder.files with
    | nil => rw [hf] at h1; cases h1
    | cons a l => rfl
  obtain ⟨pv, hpv⟩ : ∃ pv, get_conversation_preview fix folder = some pv := by
    unfold get_conversation_preview
    rw [h1]
    exact ⟨_, rfl⟩
  have hbody : (if folder.files.isEmpty then none
      else match get_conversation_preview fix folder with
        | none => none
        | some p => some (⟨folder.name, p.display_name, p.participants,
            p.message_count⟩ : ICand)) =
      some ⟨folder.name, pv.display_name, pv.participants, pv.message_count⟩ := by
    rw [hnonempty, hpv]
    rfl
  refine ⟨⟨folder.name, pv.display_name, pv.participants, pv.message_count⟩, ?_, rfl⟩
  unfold find_conversations
  exact (List.perm_insertionSort icandGe _).mem_iff.mpr
    (List.mem_filterMap.mpr ⟨folder, hmem, hbody⟩)

/-- An inbox subdirectory with a parseable `message_1.json`, for the C8
witness. -/
def presentIFolder : IFolder :=
  ⟨"conv_b", [(1, some ⟨[⟨"B"⟩], "t", [⟨"B", "y", 2⟩]⟩)]⟩

/-- C8 witness: the subdirectory with a parseable `message_1.json` is
enumerated. -/
theorem find_conversations_complete_witness :
    ∃ c ∈ find_conversations (fun s => s) (some [presentIFolder]),
      c.folder_name = presentIFolder.name :=
  find_conversations_complete (fun s => s) [presentIFolder] presentIFolder
    ⟨[⟨"B"⟩], "t", [⟨"B", "y", 2⟩]⟩ (by decide) (by decide)

/-- Malformed JSON content that still carries both structural markers. -/
def malformedJson : List Char := "\x7b \"participants\": \"messages\": ".toList

/-- C7 as frozen is false for the classifier: a file whose content fails to
parse as JSON (`json = none`; the content here is genuinely invalid JSON)
is still classified as a structured dialect by substring sniffing, not as
the Unknown sentinel. -/
theorem classify_malformed_cex :
    ∃ rf : RawFile, rf.json = none ∧ classify_file (some rf.content) ≠ "NULL" :=
  ⟨⟨malformedJson, none⟩, rfl, by decide⟩

/-- C7 amended: none of the three functions propagates a failure.  The
classifier returns the Unknown sentinel for a missing/unopenable file (for
an unparsable file it may still classify by substring sniffing); participant
extraction returns the empty list for a missing file and for a structured
file whose JSON fails to parse; fingerprinting returns the empty set for a
missing file and for a file classified structured whose JSON fails to
parse. -/
theorem failsoft_sentinels :
    classify_file none = "NULL" ∧
    (∀ ft, extract_participants ft none = []) ∧
    (∀ rf : RawFile, rf.json = none → extract_participants "Instagram" (some rf) = []) ∧
    (∀ md5hex : String → String, ∀ n, extract_message_fingerprints md5hex none n = ∅) ∧
    (∀ md5hex : String → String, ∀ n, ∀ rf : RawFile, rf.json = none →
      classify_file (some rf.content) = "Instagram" →
      extract_message_fingerprints md5hex (some rf) n = ∅) := by
  refine ⟨rfl, ?_, ?_, ?_, ?_⟩
  · intro ft
    simp [extract_participants]
  · intro rf hj
    simp [extract_participants, hj]
  · intro md5hex n
    rfl
  · intro md5hex n rf hj hcls
    simp [extract_message_fingerprints, hcls, hj]

/-- C7 witness: the sentinel behaviour at a concrete unparsable structured
file. -/
theorem failsoft_sentinels_witness :
    extract_participants "Instagram" (some ⟨malformedJson, none⟩) = [] ∧
    extract_message_fingerprints (fun _ => "") (some ⟨malformedJson, none⟩) 20 = ∅ :=
  ⟨failsoft_sentinels.2.2.1 ⟨malformedJson, none⟩ rfl,
   failsoft_sentinels.2.2.2.2 (fun _ => "") 20 ⟨malformedJson, none⟩ rfl (by decide)⟩

end AlterEcho
